import Mathlib

/-!
Shallow embedding of the ResilientMailer dispatch core
(src/EmailService.js, src/RateLimiter.js, src/EmailQueue.js,
src/MockEmailProvider.js) in Lean 4.

Modelling conventions:
- Wall-clock time (Date.now) is an explicit Nat parameter in epoch
  milliseconds; one sendEmail call is modelled at a single instant
  (the awaited backoff delays do not advance model time).
- Math.random draws are an explicit stream (Nat to Rat) consumed via a
  counter, so provider failure decisions are deterministic functions of
  the stream.
- crypto.randomUUID is modelled as an injective fresh-identifier supply
  (a counter); a message id is the pair (provider name, uuid).
- crypto sha256 fingerprints are modelled by the canonical tuple itself
  (injective stand-in for the digest).
- JS values that can be either an ISO-8601 string (new Date().toISOString())
  or an epoch-milliseconds number (Date.now()) are modelled by the sum
  type JsTime; the two constructors are never equal, as a JS string never
  equals a JS number.
- A trace of provider invocations and CircuitBreaker.execute invocations
  is threaded through, so that frame properties (what was and was not
  invoked) are expressible.
-/

namespace ResilientMailer

/-- Association-list lookup (model of Map.get). -/
def lookupA {κ β : Type} [DecidableEq κ] (k : κ) : List (κ × β) → Option β
  | [] => none
  | (k1, v) :: rest => if k1 = k then some v else lookupA k rest

/-- Association-list insert-or-replace (model of Map.set). -/
def insertA {κ β : Type} [DecidableEq κ] (k : κ) (v : β) : List (κ × β) → List (κ × β)
  | [] => [(k, v)]
  | (k1, v1) :: rest => if k1 = k then (k, v) :: rest else (k1, v1) :: insertA k v rest

/-- Association-list removal (model of Map.delete). -/
def eraseA {κ β : Type} [DecidableEq κ] (k : κ) : List (κ × β) → List (κ × β)
  | [] => []
  | (k1, v1) :: rest => if k1 = k then rest else (k1, v1) :: eraseA k rest

/-- A JS value holding a point in time: either the ISO string produced by
new Date().toISOString() or the number produced by Date.now(). The two are
never equal, as a JS string never equals a JS number. -/
inductive JsTime
  | iso (ms : Nat)
  | ms (ms : Nat)
deriving DecidableEq

instance {ε α : Type} [DecidableEq ε] [DecidableEq α] : DecidableEq (Except ε α) := fun x y =>
  match x, y with
  | .ok a, .ok b =>
      if h : a = b then .isTrue (by rw [h]) else .isFalse (by intro hc; cases hc; exact h rfl)
  | .error a, .error b =>
      if h : a = b then .isTrue (by rw [h]) else .isFalse (by intro hc; cases hc; exact h rfl)
  | .ok _, .error _ => .isFalse (fun hc => Except.noConfusion hc)
  | .error _, .ok _ => .isFalse (fun hc => Except.noConfusion hc)

/-- Errors thrown by the service (EmailService.js). -/
inductive EmailError
  | validation (msg : String)
  | rateLimitExceeded
  | providerFailed (name : String)
  | breakerOpen
  | allProvidersFailed (lastMessage : String)
  | typeError (msg : String)
deriving DecidableEq

/-- The error.message string of each error (EmailService.js / MockEmailProvider.js /
the breaker-open error observed in tests/CircuitBreaker tests). -/
def errMessage : EmailError → String
  | .validation m => m
  | .rateLimitExceeded => "Rate limit exceeded"
  | .providerFailed n => n ++ " provider failed: Service temporarily unavailable"
  | .breakerOpen => "Circuit breaker is OPEN"
  | .allProvidersFailed m => "Failed to send email after trying all providers: " ++ m
  | .typeError m => m

/-- A request payload (EmailService.sendEmail argument). A missing or empty
field is modelled as the empty string, matching JS falsiness of both. -/
structure Email where
  toAddr : String
  subject : String
  body : String
  fromField : String := ""
deriving DecidableEq

/-- Character class of the regex atoms in EmailService.validateEmail:
not whitespace and not the at sign. -/
def noWsAt (c : Char) : Bool := !(c = '@' || c.isWhitespace)

/-- Split a character list at its first at sign. -/
def splitAtFirstAt : List Char → Option (List Char × List Char)
  | [] => none
  | c :: rest =>
      if c = '@' then some ([], rest)
      else match splitAtFirstAt rest with
        | some (l, r) => some (c :: l, r)
        | none => none

/-- Decision procedure for the anchored JS regex used in
EmailService.validateEmail: one or more non-ws-non-at characters, an at
sign, one or more non-ws-non-at characters, a dot, one or more
non-ws-non-at characters. Equivalently: the part before the first at
sign is nonempty and clean, the part after it is clean and contains a dot
with a nonempty segment on each side. -/
def emailRegexTest (s : String) : Bool :=
  match splitAtFirstAt s.toList with
  | none => false
  | some (localPart, domain) =>
      !localPart.isEmpty && localPart.all noWsAt && domain.all noWsAt &&
        ((domain.drop 1).dropLast.contains '.')

/-- EmailService.validateEmail: returns the thrown error message, or none
when the email is valid. The required-field checks use JS truthiness, so
an empty string fails them. -/
def validateEmail (email : Email) : Option String :=
  if email.toAddr = "" then some "Email to is required"
  else if email.subject = "" then some "Email subject is required"
  else if email.body = "" then some "Email body is required"
  else if !emailRegexTest email.toAddr then some "Invalid email address format"
  else none

/-- An idempotency cache key: either the caller-supplied string or the
sha256 digest of the canonical (to, subject, body, from) serialization,
the digest being modelled injectively by the tuple itself. -/
inductive IdemKey
  | custom (key : String)
  | digest (toAddr subject body fromField : String)
deriving DecidableEq

/-- EmailService.generateIdempotencyKey. -/
def generateIdempotencyKey (email : Email) : IdemKey :=
  .digest email.toAddr email.subject email.body email.fromField

/-- Options argument of EmailService.sendEmail. -/
structure SendOptions where
  idempotencyKey : Option String := none
deriving DecidableEq

/-- The key selection in sendEmail: options.idempotencyKey or the generated
digest; an empty custom key is falsy in JS and falls back to the digest. -/
def idempotencyKeyOf (email : Email) (opts : SendOptions) : IdemKey :=
  match opts.idempotencyKey with
  | some k => if k = "" then generateIdempotencyKey email else .custom k
  | none => generateIdempotencyKey email

/-- A provider send result (MockEmailProvider.sendEmail success value).
The message id is the pair (provider name, uuid), modelling
name-randomUUID concatenation injectively. -/
structure SendResult where
  success : Bool
  messageId : String × Nat
  provider : String
  timestamp : JsTime
  emailTo : String
  emailSubject : String
deriving DecidableEq

instance : Inhabited SendResult := ⟨⟨false, ("", 0), "", .ms 0, "", ""⟩⟩

/-- A mock provider configuration (MockEmailProvider constructor state). -/
structure Provider where
  name : String
  failureRate : ℚ := 1 / 10
  isHealthy : Bool := true

/-- Events recorded while a send runs: an invocation of provider.sendEmail,
or an invocation of circuitBreaker.execute. -/
inductive TraceEv
  | provCall (i : Nat)
  | cbExec (i : Nat)
deriving DecidableEq

/-- The ambient counters of one dispatcher process: next fresh uuid, next
index into the Math.random stream, and the invocation trace. -/
structure Ctrs where
  uuid : Nat
  rand : Nat
  trace : List TraceEv
deriving DecidableEq

/-- MockEmailProvider.sendEmail: consume one random draw; fail when the
provider is unhealthy or the draw is below the failure rate; otherwise
produce a result with a fresh message id and an ISO timestamp. -/
def providerSend (env : Nat → ℚ) (now : Nat) (email : Email) (p : Provider) (pIdx : Nat)
    (c : Ctrs) : Except EmailError SendResult × Ctrs :=
  let draw := env c.rand
  let c1 : Ctrs := { c with rand := c.rand + 1, trace := c.trace ++ [.provCall pIdx] }
  if p.isHealthy = false ∨ draw < p.failureRate then
    (.error (.providerFailed p.name), c1)
  else
    (.ok { success := true, messageId := (p.name, c1.uuid), provider := p.name,
           timestamp := .iso now, emailTo := email.toAddr, emailSubject := email.subject },
     { c1 with uuid := c1.uuid + 1 })

/-- The three circuit states of one breaker. -/
inductive CircState
  | closed
  | open_
  | halfOpen
deriving DecidableEq

/-- Observable state of one CircuitBreaker instance, as reported by
getState in tests/CircuitBreaker tests: state, failureCount, nextAttempt
(null before the breaker ever opens). -/
structure CBState where
  state : CircState := .closed
  failureCount : Nat := 0
  nextAttempt : Option Nat := none
deriving DecidableEq

instance : Inhabited CBState := ⟨{}⟩

/-- Modelled from the spec: CircuitBreaker.execute. CircuitBreaker.js is
not among the source files (only its tests are), so this follows spec
section 4.2 and the behavior asserted by the CircuitBreaker tests:
while OPEN before nextAttempt the call fails with the breaker-open error
and the operation never runs; at or after nextAttempt the state moves to
HALF_OPEN and the call proceeds as a probe; success resets the state to
CLOSED with failureCount 0; failure increments failureCount and trips to
OPEN (with nextAttempt = now + resetTimeout) once the threshold is
reached, or immediately when the failure happens while HALF_OPEN. -/
def cbExecute {σ : Type} (failureThreshold resetTimeout now : Nat) (cb : CBState)
    (op : σ → Except EmailError SendResult × σ) (s : σ) :
    Except EmailError SendResult × CBState × σ :=
  let gate : Option CBState :=
    match cb.state, cb.nextAttempt with
    | .open_, some t => if now < t then none else some { cb with state := .halfOpen }
    | .open_, none => some { cb with state := .halfOpen }
    | _, _ => some cb
  match gate with
  | none => (.error .breakerOpen, cb, s)
  | some cb1 =>
      match op s with
      | (.ok r, s1) => (.ok r, { cb1 with state := .closed, failureCount := 0 }, s1)
      | (.error e, s1) =>
          let fc := cb1.failureCount + 1
          if failureThreshold ≤ fc ∨ cb1.state = .halfOpen then
            (.error e, { state := .open_, failureCount := fc,
                         nextAttempt := some (now + resetTimeout) }, s1)
          else
            (.error e, { cb1 with failureCount := fc }, s1)

/-- State of the RateLimiter instance: the vestigial token fields and the
per-identifier request-timestamp map. -/
structure RLState where
  tokens : Nat
  lastRefill : Nat
  requests : List (String × List Nat)
deriving DecidableEq

/-- RateLimiter constructor state at construction time t0. -/
def rlInit (limit t0 : Nat) : RLState :=
  { tokens := limit, lastRefill := t0, requests := [] }

/-- RateLimiter.refillTokens: refreshes the (otherwise unused) token count
once a full window has passed. -/
def refillTokens (limit window now : Nat) (rl : RLState) : RLState :=
  if window ≤ now - rl.lastRefill then { rl with tokens := limit, lastRefill := now }
  else rl

/-- The filter in isAllowed and getRemaining: keep timestamps strictly
newer than now minus the window (computed in Int, as in JS, where the
window start may be negative). -/
def recentRequests (window now : Nat) (hist : List Nat) : List Nat :=
  hist.filter (fun t => decide ((now : Int) - (window : Int) < (t : Int)))

/-- RateLimiter.isAllowed: prune the identifier's history to the current
window; deny when the pruned count has reached the limit (leaving the
stored history untouched); otherwise record now and allow. -/
def isAllowed (limit window now : Nat) (identifier : String) (rl0 : RLState) :
    Bool × RLState :=
  let rl := refillTokens limit window now rl0
  let hist := (lookupA identifier rl.requests).getD []
  let recent := recentRequests window now hist
  if limit ≤ recent.length then (false, rl)
  else (true, { rl with requests := insertA identifier (recent ++ [now]) rl.requests })

/-- RateLimiter.getRemaining: the limit minus the in-window count, floored
at zero (Nat subtraction), without mutating state. -/
def getRemaining (limit window now : Nat) (identifier : String) (rl : RLState) : Nat :=
  limit - (recentRequests window now ((lookupA identifier rl.requests).getD [])).length

/-- Service configuration after constructor defaulting (EmailService
constructor). -/
structure Config where
  maxRetries : Nat := 3
  baseDelay : Nat := 1000
  maxDelay : Nat := 10000
  rateLimit : Nat := 100
  rateLimitWindow : Nat := 60000
  circuitBreakerThreshold : Nat := 5
  circuitBreakerTimeout : Nat := 60000
  idempotencyTtl : Nat := 3600000
  providers : List Provider

/-- Mutable state of one EmailService instance plus the ambient counters. -/
structure World where
  sentEmails : List (IdemKey × SendResult)
  currentProviderIndex : Nat
  rl : RLState
  breakers : List CBState
  ctrs : Ctrs
deriving DecidableEq

/-- Fresh EmailService state as built by the constructor at time t0. -/
def initWorld (cfg : Config) (t0 : Nat) : World :=
  { sentEmails := [], currentProviderIndex := 0, rl := rlInit cfg.rateLimit t0,
    breakers := List.replicate cfg.providers.length {}, ctrs := ⟨0, 0, []⟩ }

/-- The expiry test inside EmailService.isDuplicate: now minus the stored
timestamp exceeds the TTL. A stored ISO string would make the JS
subtraction NaN, and NaN compares false. -/
def jsExpired (now : Nat) (t : JsTime) (ttl : Nat) : Bool :=
  match t with
  | .ms m => decide (ttl < now - m)
  | .iso _ => false

/-- EmailService.isDuplicate: absent record means not a duplicate; an
expired record is deleted and reported as not a duplicate; a live record
is a duplicate. Returns the flag and the possibly-updated cache. -/
def isDuplicate (ttl now : Nat) (key : IdemKey) (sentEmails : List (IdemKey × SendResult)) :
    Bool × List (IdemKey × SendResult) :=
  match lookupA key sentEmails with
  | none => (false, sentEmails)
  | some record =>
      if jsExpired now record.timestamp ttl then (false, eraseA key sentEmails)
      else (true, sentEmails)

/-- EmailService.trackSentEmail: store the result under the key, with the
spread replacing the result's timestamp field by Date.now(). -/
def trackSentEmail (key : IdemKey) (result : SendResult) (now : Nat)
    (sentEmails : List (IdemKey × SendResult)) : List (IdemKey × SendResult) :=
  insertA key { result with timestamp := .ms now } sentEmails

/-- EmailService.sendWithRetry: up to maxRetries attempts (the Nat argument
is the remaining-attempt count); each attempt invokes
circuitBreaker.execute around one provider.sendEmail call; the failure of
the final attempt propagates; earlier failures wait out a backoff delay
(which does not advance model time) and retry. A zero budget mirrors the
JS loop body never running (unreachable: constructor defaulting forces
maxRetries at least 1). -/
def sendWithRetry (cfg : Config) (env : Nat → ℚ) (now : Nat) (email : Email)
    (provider : Provider) (pIdx : Nat) :
    Nat → CBState → Ctrs → Except EmailError SendResult × CBState × Ctrs
  | 0, cb, c => (.error (.providerFailed provider.name), cb, c)
  | n + 1, cb, c =>
      let c1 : Ctrs := { c with trace := c.trace ++ [.cbExec pIdx] }
      match cbExecute cfg.circuitBreakerThreshold cfg.circuitBreakerTimeout now cb
          (providerSend env now email provider pIdx) c1 with
      | (.ok r, cb1, c2) => (.ok r, cb1, c2)
      | (.error e, cb1, c2) =>
          if n = 0 then (.error e, cb1, c2)
          else sendWithRetry cfg env now email provider pIdx n cb1 c2

/-- The provider loop of EmailService.sendEmail: try each provider starting
from the rotating preferred index; on success update the preferred index,
track the result, and return it; on failure remember the error message and
move on; when all providers are exhausted, fail with the
all-providers-failed error carrying the last message (the JS code would
throw a TypeError reading .message of undefined if the loop never ran). -/
def tryProviders (cfg : Config) (env : Nat → ℚ) (now : Nat) (email : Email) (key : IdemKey) :
    Nat → Nat → Option String → World → Except EmailError SendResult × World
  | _, 0, lastErr, w =>
      match lastErr with
      | some m => (.error (.allProvidersFailed m), w)
      | none => (.error (.typeError "Cannot read properties of undefined"), w)
  | offset, rem + 1, _lastErr, w =>
      let actualIdx := (w.currentProviderIndex + offset) % cfg.providers.length
      match cfg.providers[actualIdx]? with
      | none => (.error (.typeError "undefined is not a provider"), w)
      | some provider =>
          let cb := (w.breakers[actualIdx]?).getD {}
          match sendWithRetry cfg env now email provider actualIdx cfg.maxRetries cb w.ctrs with
          | (.ok r, cb1, c1) =>
              (.ok r, { w with breakers := w.breakers.set actualIdx cb1, ctrs := c1,
                               currentProviderIndex := actualIdx,
                               sentEmails := trackSentEmail key r now w.sentEmails })
          | (.error e, cb1, c1) =>
              tryProviders cfg env now email key (offset + 1) rem (some (errMessage e))
                { w with breakers := w.breakers.set actualIdx cb1, ctrs := c1 }

/-- EmailService.sendEmail: validate, compute the idempotency key, return a
live cached record verbatim, otherwise check the rate limiter (keyed by
the from address or the default bucket) and run the provider loop. -/
def sendEmail (cfg : Config) (env : Nat → ℚ) (now : Nat) (email : Email) (opts : SendOptions)
    (w : World) : Except EmailError SendResult × World :=
  match validateEmail email with
  | some msg => (.error (.validation msg), w)
  | none =>
      let key := idempotencyKeyOf email opts
      match isDuplicate cfg.idempotencyTtl now key w.sentEmails with
      | (true, sent1) =>
          match lookupA key sent1 with
          | some record => (.ok record, { w with sentEmails := sent1 })
          | none => (.error (.typeError "unreachable duplicate without record"), w)
      | (false, sent1) =>
          let rlId := if email.fromField = "" then "default" else email.fromField
          match isAllowed cfg.rateLimit cfg.rateLimitWindow now rlId w.rl with
          | (false, rl1) => (.error .rateLimitExceeded, { w with sentEmails := sent1, rl := rl1 })
          | (true, rl1) =>
              tryProviders cfg env now email key 0 cfg.providers.length none
                { w with sentEmails := sent1, rl := rl1 }

/-! Queue model (src/EmailQueue.js). -/

/-- Lifecycle states of a queue item. -/
inductive QStatus
  | pending
  | processing
  | completed
  | failed
deriving DecidableEq

/-- One queue item (EmailQueue.addEmail literal). The JS id string
queue-time-random is modelled by an injective counter. -/
structure QueueItem where
  id : Nat
  emailTo : String
  emailSubject : String
  priority : Int
  attempts : Nat
  maxAttempts : Nat
  createdAt : Nat
  status : QStatus
  nextAttempt : Option Nat := none
  errorMsg : Option String := none
  failedAt : Option Nat := none
deriving DecidableEq

/-- The sortQueue comparator as a total boolean order: a sorts no later
than b when a has strictly higher priority, or equal priority and no
later creation time. -/
def itemLE (a b : QueueItem) : Bool :=
  if a.priority = b.priority then decide (a.createdAt ≤ b.createdAt)
  else decide (b.priority < a.priority)

/-- Stable insertion of a later-arriving item: it goes after every item
that sorts no later than it. -/
def insertStable (x : QueueItem) : List QueueItem → List QueueItem
  | [] => [x]
  | y :: ys => if itemLE y x then y :: insertStable x ys else x :: y :: ys

/-- EmailQueue.sortQueue: JS Array.prototype.sort is a stable sort by the
comparator; its extensional behavior is this stable insertion sort by
itemLE, inserting elements in their original order. -/
def sortQueue (queue : List QueueItem) : List QueueItem :=
  queue.foldl (fun acc x => insertStable x acc) []

/-- Mutable queue state: the item list and the fresh-id counter. -/
structure QueueState where
  queue : List QueueItem := []
  nextId : Nat := 0
deriving DecidableEq

/-- EmailQueue.addEmail: build a pending item (a zero maxAttempts option is
JS-falsy and falls back to the queue's retryAttempts), append it, re-sort,
and return its id. -/
def addEmail (retryAttempts now : Nat) (email : Email) (priority : Int)
    (maxAttempts : Nat) (qs : QueueState) : Nat × QueueState :=
  let item : QueueItem :=
    { id := qs.nextId, emailTo := email.toAddr, emailSubject := email.subject,
      priority := priority, attempts := 0,
      maxAttempts := if maxAttempts = 0 then retryAttempts else maxAttempts,
      createdAt := now, status := .pending }
  (qs.nextId, { queue := sortQueue (qs.queue ++ [item]), nextId := qs.nextId + 1 })

/-- The selection step of EmailQueue.processQueue: the pending items, in
queue order, capped at maxConcurrency. The selection reads only the status
field; it takes no clock and never consults nextAttempt. -/
def itemsToProcess (maxConcurrency : Nat) (queue : List QueueItem) : List QueueItem :=
  (queue.filter (fun it => decide (it.status = .pending))).take maxConcurrency

/-- EmailQueue.calculateRetryDelay: exponential backoff from a 1s base,
capped at 30s. -/
def calculateRetryDelay (attempt : Nat) : Nat :=
  min (1000 * 2 ^ (attempt - 1)) 30000

/-- The failure branch of EmailQueue.processQueueItem: the attempt counter
was incremented on entry; a terminally-failed item is stamped with the
error and failure time, otherwise the item returns to pending with
nextAttempt = now + calculateRetryDelay(attempts). -/
def processQueueItemFailure (now : Nat) (errMsg : String) (item : QueueItem) : QueueItem :=
  let item1 : QueueItem := { item with status := .processing, attempts := item.attempts + 1 }
  if item1.maxAttempts ≤ item1.attempts then
    { item1 with status := .failed, errorMsg := some errMsg, failedAt := some now }
  else
    { item1 with status := .pending, nextAttempt := some (now + calculateRetryDelay item1.attempts) }

/-- The success branch of EmailQueue.processQueueItem. -/
def processQueueItemSuccess (item : QueueItem) : QueueItem :=
  { item with status := .completed, attempts := item.attempts + 1 }

/-! Basic lemmas about the association-list operations. -/

lemma lookupA_insertA {κ β : Type} [DecidableEq κ] (k : κ) (v : β) (l : List (κ × β)) :
    lookupA k (insertA k v l) = some v := by
  induction l with
  | nil => simp [insertA, lookupA]
  | cons hd tl ih =>
      obtain ⟨k1, v1⟩ := hd
      by_cases h : k1 = k
      · simp [insertA, lookupA, h]
      · simp [insertA, lookupA, h, ih]

/-! Lemmas about the rate limiter, stated purely in terms of the requests
map, since the vestigial token fields never influence admission. -/

lemma refillTokens_requests (limit window now : Nat) (rl : RLState) :
    (refillTokens limit window now rl).requests = rl.requests := by
  unfold refillTokens; split <;> rfl

lemma isAllowed_fst (limit window now : Nat) (idf : String) (rl : RLState) :
    (isAllowed limit window now idf rl).1
      = !decide (limit ≤
          (recentRequests window now ((lookupA idf rl.requests).getD [])).length) := by
  unfold isAllowed
  dsimp only
  rw [refillTokens_requests]
  split <;> simp_all

lemma isAllowed_snd_requests (limit window now : Nat) (idf : String) (rl : RLState) :
    (isAllowed limit window now idf rl).2.requests
      = if limit ≤ (recentRequests window now ((lookupA idf rl.requests).getD [])).length
        then rl.requests
        else insertA idf
          (recentRequests window now ((lookupA idf rl.requests).getD []) ++ [now])
          rl.requests := by
  unfold isAllowed
  dsimp only
  rw [refillTokens_requests]
  split
  · exact refillTokens_requests _ _ _ _
  · rfl

/-- C5: for a rate limiter with limit 2 and window W, three admit calls for
the same identifier within W return true, true, false, and a later call
made more than W after the second one returns true again. -/
theorem rateLimiter_admit_sequence (W t0 t1 t2 t3 t4 : Nat) (idf : String)
    (s1 s2 s3 s4 : Bool × RLState)
    (h12 : t1 ≤ t2) (h23 : t2 ≤ t3)
    (hin : (t3 : Int) - (W : Int) < (t1 : Int))
    (hgap : (t2 : Int) ≤ (t4 : Int) - (W : Int))
    (hs1 : isAllowed 2 W t1 idf (rlInit 2 t0) = s1)
    (hs2 : isAllowed 2 W t2 idf s1.2 = s2)
    (hs3 : isAllowed 2 W t3 idf s2.2 = s3)
    (hs4 : isAllowed 2 W t4 idf s3.2 = s4) :
    s1.1 = true ∧ s2.1 = true ∧ s3.1 = false ∧ s4.1 = true := by
  have hin2 : (t2 : Int) - (W : Int) < (t1 : Int) := by omega
  have hin3a : (t3 : Int) - (W : Int) < (t1 : Int) := hin
  have hin3b : (t3 : Int) - (W : Int) < (t2 : Int) := by omega
  have hout1 : ¬ ((t4 : Int) - (W : Int) < (t1 : Int)) := by omega
  have hout2 : ¬ ((t4 : Int) - (W : Int) < (t2 : Int)) := by omega
  -- first call: empty history, admitted, history becomes [t1]
  have b1 : s1.1 = true := by
    rw [← hs1, isAllowed_fst]; simp [rlInit, lookupA, recentRequests]
  have r1 : s1.2.requests = [(idf, [t1])] := by
    rw [← hs1, isAllowed_snd_requests]
    simp [rlInit, lookupA, recentRequests, insertA]
  -- second call: history [t1] survives the prune, admitted, history [t1, t2]
  have f2 : recentRequests W t2 [t1] = [t1] := by
    simp [recentRequests, hin2]
  have b2 : s2.1 = true := by
    rw [← hs2, isAllowed_fst, r1]; simp [lookupA, f2]
  have r2 : s2.2.requests = [(idf, [t1, t2])] := by
    rw [← hs2, isAllowed_snd_requests, r1]
    simp [lookupA, f2, insertA]
  -- third call: both stamps still in the window, denied, history untouched
  have f3 : recentRequests W t3 [t1, t2] = [t1, t2] := by
    simp [recentRequests, hin3a, hin3b]
  have b3 : s3.1 = false := by
    rw [← hs3, isAllowed_fst, r2]; simp [lookupA, f3]
  have r3 : s3.2.requests = [(idf, [t1, t2])] := by
    rw [← hs3, isAllowed_snd_requests, r2]
    simp [lookupA, f3]
  -- fourth call: both stamps pruned, admitted again
  have f4 : recentRequests W t4 [t1, t2] = [] := by
    simp [recentRequests, hout1, hout2]
  have b4 : s4.1 = true := by
    rw [← hs4, isAllowed_fst, r3]; simp [lookupA, f4]
  exact ⟨b1, b2, b3, b4⟩

def c5out1 : Bool × RLState := isAllowed 2 100 0 "a" (rlInit 2 0)
def c5out2 : Bool × RLState := isAllowed 2 100 10 "a" c5out1.2
def c5out3 : Bool × RLState := isAllowed 2 100 50 "a" c5out2.2
def c5out4 : Bool × RLState := isAllowed 2 100 111 "a" c5out3.2

/-- Witness for C5 at limit 2, window 100, call times 0, 10, 50 and 111. -/
theorem rateLimiter_admit_sequence_witness :
    c5out1.1 = true ∧ c5out2.1 = true ∧ c5out3.1 = false ∧ c5out4.1 = true :=
  rateLimiter_admit_sequence 100 0 0 10 50 111 "a" c5out1 c5out2 c5out3 c5out4
    (by decide) (by decide) (by decide) (by decide) rfl rfl rfl rfl

/-! C6: circuit breaker lifecycle. -/

/-- An operation with a fixed outcome and no state effect, used to probe the
breaker with a pure success or failure. -/
def opConst (σ : Type) (out : Except EmailError SendResult) :
    σ → Except EmailError SendResult × σ :=
  fun s => (out, s)

/-- C6: with failure threshold 2, two consecutive failed operations move the
breaker from CLOSED to OPEN with nextAttempt = now + resetTimeout; while
OPEN and before nextAttempt, execute fails with the breaker-open error for
every operation, without invoking it (the output is independent of the
operation) and without changing state; at or after nextAttempt, the next
call proceeds as a HALF_OPEN probe and, on success, the breaker is CLOSED
with failureCount 0. -/
theorem circuitBreaker_threshold_two_lifecycle
    (R t1 t2 t3 t4 : Nat) (e1 e2 : EmailError) (r : SendResult)
    (h3 : t3 < t2 + R) (h4 : t2 + R ≤ t4) :
    cbExecute 2 R t1 {} (opConst Unit (.error e1)) ()
      = (.error e1, { state := .closed, failureCount := 1, nextAttempt := none }, ()) ∧
    cbExecute 2 R t2 { state := .closed, failureCount := 1, nextAttempt := none }
        (opConst Unit (.error e2)) ()
      = (.error e2, { state := .open_, failureCount := 2, nextAttempt := some (t2 + R) }, ()) ∧
    (∀ op : Unit → Except EmailError SendResult × Unit,
      cbExecute 2 R t3 { state := .open_, failureCount := 2, nextAttempt := some (t2 + R) } op ()
        = (.error .breakerOpen,
           { state := .open_, failureCount := 2, nextAttempt := some (t2 + R) }, ())) ∧
    cbExecute 2 R t4 { state := .open_, failureCount := 2, nextAttempt := some (t2 + R) }
        (opConst Unit (.ok r)) ()
      = (.ok r, { state := .closed, failureCount := 0, nextAttempt := some (t2 + R) }, ()) := by
  refine ⟨?_, ?_, ?_, ?_⟩
  · simp [cbExecute, opConst]
  · simp [cbExecute, opConst]
  · intro op
    simp [cbExecute, if_pos h3]
  · simp [cbExecute, opConst, if_neg (Nat.not_lt.mpr h4)]

/-- Witness for C6 at resetTimeout 100 and call times 0, 1, 50, 101. -/
theorem circuitBreaker_threshold_two_lifecycle_witness :
    cbExecute 2 100 0 {} (opConst Unit (.error .breakerOpen)) ()
      = (.error .breakerOpen, { state := .closed, failureCount := 1, nextAttempt := none }, ()) ∧
    cbExecute 2 100 1 { state := .closed, failureCount := 1, nextAttempt := none }
        (opConst Unit (.error .breakerOpen)) ()
      = (.error .breakerOpen,
         { state := .open_, failureCount := 2, nextAttempt := some 101 }, ()) ∧
    (∀ op : Unit → Except EmailError SendResult × Unit,
      cbExecute 2 100 50 { state := .open_, failureCount := 2, nextAttempt := some 101 } op ()
        = (.error .breakerOpen,
           { state := .open_, failureCount := 2, nextAttempt := some 101 }, ())) ∧
    cbExecute 2 100 101 { state := .open_, failureCount := 2, nextAttempt := some 101 }
        (opConst Unit (.ok default)) ()
      = (.ok default, { state := .closed, failureCount := 0, nextAttempt := some 101 }, ()) :=
  circuitBreaker_threshold_two_lifecycle 100 0 1 50 101 .breakerOpen .breakerOpen default
    (by decide) (by decide)

/-! C7: the processing pass ignores nextAttempt. -/

def c7item0 : QueueItem :=
  { id := 0, emailTo := "user@example.com", emailSubject := "Subject", priority := 0,
    attempts := 0, maxAttempts := 3, createdAt := 0, status := .pending }

def c7item1 : QueueItem := processQueueItemFailure 0 "boom" c7item0

def c7item2 : QueueItem := processQueueItemFailure 1000 "boom" c7item1

/-- C7 evaluated at the failing input: an item that failed twice is pending
with nextAttempt 3000, yet the selection step of the very next processing
pass (which runs at time 2000, and indeed at any time, since the selection
never reads a clock or the nextAttempt field) still selects it for
dispatch. -/
theorem processQueue_ignores_nextAttempt :
    c7item2.status = .pending ∧
    c7item2.nextAttempt = some 3000 ∧
    itemsToProcess 5 [c7item2] = [c7item2] := by decide

/-! C8: queue ordering. -/

lemma itemLE_total (a b : QueueItem) : itemLE a b = true ∨ itemLE b a = true := by
  unfold itemLE
  by_cases h : a.priority = b.priority
  · rw [if_pos h, if_pos h.symm]
    simp only [decide_eq_true_eq]
    omega
  · rw [if_neg h, if_neg (fun hb => h hb.symm)]
    simp only [decide_eq_true_eq]
    omega

lemma itemLE_trans (a b c : QueueItem) (hab : itemLE a b = true) (hbc : itemLE b c = true) :
    itemLE a c = true := by
  unfold itemLE at hab hbc ⊢
  by_cases h1 : a.priority = b.priority
  · by_cases h2 : b.priority = c.priority
    · rw [if_pos h1] at hab; rw [if_pos h2] at hbc; rw [if_pos (h1.trans h2)]
      simp only [decide_eq_true_eq] at hab hbc ⊢
      omega
    · rw [if_pos h1] at hab; rw [if_neg h2] at hbc
      rw [if_neg (fun h3 => h2 (h1.symm.trans h3))]
      simp only [decide_eq_true_eq] at hab hbc ⊢
      omega
  · by_cases h2 : b.priority = c.priority
    · rw [if_neg h1] at hab; rw [if_pos h2] at hbc
      rw [if_neg (fun h3 => h1 (h3.trans h2.symm))]
      simp only [decide_eq_true_eq] at hab hbc ⊢
      omega
    · rw [if_neg h1] at hab; rw [if_neg h2] at hbc
      simp only [decide_eq_true_eq] at hab hbc
      rw [if_neg (by intro h3; omega)]
      simp only [decide_eq_true_eq]
      omega

lemma mem_insertStable {x y : QueueItem} {l : List QueueItem} :
    y ∈ insertStable x l ↔ y = x ∨ y ∈ l := by
  induction l with
  | nil => simp [insertStable]
  | cons z zs ih =>
      rw [insertStable]
      split
      · simp only [List.mem_cons, ih]
        tauto
      · simp only [List.mem_cons]

lemma insertStable_pairwise {x : QueueItem} {l : List QueueItem}
    (hl : l.Pairwise (fun a b => itemLE a b = true)) :
    (insertStable x l).Pairwise (fun a b => itemLE a b = true) := by
  induction l with
  | nil => simp [insertStable]
  | cons y ys ih =>
      rcases List.pairwise_cons.mp hl with ⟨hy, hys⟩
      by_cases h : itemLE y x = true
      · rw [insertStable, if_pos h]
        refine List.pairwise_cons.mpr ⟨?_, ih hys⟩
        intro z hz
        rcases mem_insertStable.mp hz with rfl | hz
        · exact h
        · exact hy z hz
      · have hxy : itemLE x y = true := (itemLE_total x y).resolve_right h
        rw [insertStable, if_neg h]
        refine List.pairwise_cons.mpr ⟨?_, hl⟩
        intro z hz
        rcases List.mem_cons.mp hz with rfl | hz
        · exact hxy
        · exact itemLE_trans x y z hxy (hy z hz)

lemma sortQueue_pairwise (l : List QueueItem) :
    (sortQueue l).Pairwise (fun a b => itemLE a b = true) := by
  suffices h : ∀ (acc : List QueueItem), acc.Pairwise (fun a b => itemLE a b = true) →
      (l.foldl (fun acc x => insertStable x acc) acc).Pairwise (fun a b => itemLE a b = true) by
    exact h [] (by simp)
  induction l with
  | nil => intro acc hacc; exact hacc
  | cons x xs ih => intro acc hacc; exact ih _ (insertStable_pairwise hacc)

def c8email : Email := { toAddr := "user@example.com", subject := "Subject", body := "Body" }

def c8qs1 : QueueState := (addEmail 3 0 c8email 1 0 {}).2
def c8qs2 : QueueState := (addEmail 3 1 c8email 10 0 c8qs1).2
def c8qs3 : QueueState := (addEmail 3 2 c8email 5 0 c8qs2).2
def c8qs4 : QueueState := (addEmail 3 3 c8email 5 0 c8qs3).2

/-- C8: enqueueing priorities 1, 10, 5 (ids 0, 1, 2) yields processing
order by priority 10, 5, 1, that is ids 1, 2, 0; adding a second
priority-5 item (id 3) keeps the two equal-priority items in enqueue
order; and after every enqueue the whole queue satisfies the ordering
invariant (higher priority first, ties by earlier creation time), for
every prior queue state. -/
theorem queue_priority_ordering :
    ((itemsToProcess 5 c8qs3.queue).map (fun it => it.priority) = [10, 5, 1] ∧
     (itemsToProcess 5 c8qs3.queue).map (fun it => it.id) = [1, 2, 0]) ∧
    (itemsToProcess 5 c8qs4.queue).map (fun it => it.id) = [1, 2, 3, 0] ∧
    ∀ (retryAttempts now : Nat) (email : Email) (priority : Int)
      (maxAttempts : Nat) (qs : QueueState),
      ((addEmail retryAttempts now email priority maxAttempts qs).2.queue).Pairwise
        (fun a b => itemLE a b = true) := by
  refine ⟨by decide, by decide, ?_⟩
  intro retryAttempts now email priority maxAttempts qs
  unfold addEmail
  exact sortQueue_pairwise _

/-! C10: a cached duplicate send touches nothing. -/

lemma sendEmail_duplicate_spec (cfg : Config) (env : Nat → ℚ) (now : Nat) (email : Email)
    (opts : SendOptions) (w : World) (rec : SendResult)
    (hval : validateEmail email = none)
    (hlook : lookupA (idempotencyKeyOf email opts) w.sentEmails = some rec)
    (hlive : jsExpired now rec.timestamp cfg.idempotencyTtl = false) :
    sendEmail cfg env now email opts w = (.ok rec, w) := by
  simp [sendEmail, isDuplicate, hval, hlook, hlive]

/-- C10: when the fingerprint has a live idempotency record, sendEmail
returns that record and the entire service state is unchanged — in
particular the rate limiter state is untouched, the remaining capacity it
reports is unchanged for every identifier, and no provider call and no
breaker execute is added to the trace. -/
theorem duplicate_send_preserves_rateLimiter (cfg : Config) (env : Nat → ℚ) (now : Nat)
    (email : Email) (opts : SendOptions) (w : World) (rec : SendResult)
    (hval : validateEmail email = none)
    (hlook : lookupA (idempotencyKeyOf email opts) w.sentEmails = some rec)
    (hlive : jsExpired now rec.timestamp cfg.idempotencyTtl = false) :
    sendEmail cfg env now email opts w = (.ok rec, w) ∧
    (sendEmail cfg env now email opts w).2.rl = w.rl ∧
    (sendEmail cfg env now email opts w).2.ctrs.trace = w.ctrs.trace ∧
    ∀ idf cap win t, getRemaining cap win t idf (sendEmail cfg env now email opts w).2.rl
      = getRemaining cap win t idf w.rl := by
  have h := sendEmail_duplicate_spec cfg env now email opts w rec hval hlook hlive
  rw [h]
  exact ⟨rfl, rfl, rfl, fun _ _ _ _ => rfl⟩

def cfgOk : Config := { providers := [{ name := "P", failureRate := 0, isHealthy := true }] }

def envZero : Nat → ℚ := fun _ => 0

def emailX : Email :=
  { toAddr := "user@example.com", subject := "Hello", body := "Body",
    fromField := "sender@example.com" }

def optsNone : SendOptions := {}

def c10rec : SendResult :=
  { success := true, messageId := ("P", 0), provider := "P", timestamp := .ms 0,
    emailTo := "user@example.com", emailSubject := "Hello" }

def c10world : World :=
  { sentEmails := [(idempotencyKeyOf emailX optsNone, c10rec)], currentProviderIndex := 0,
    rl := rlInit 100 0, breakers := [{}], ctrs := ⟨0, 0, []⟩ }

/-- Witness for C10: a concrete world with a live cached record. -/
theorem duplicate_send_preserves_rateLimiter_witness :
    sendEmail cfgOk envZero 5 emailX optsNone c10world = (.ok c10rec, c10world) ∧
    (sendEmail cfgOk envZero 5 emailX optsNone c10world).2.rl = c10world.rl ∧
    (sendEmail cfgOk envZero 5 emailX optsNone c10world).2.ctrs.trace = c10world.ctrs.trace ∧
    ∀ idf cap win t,
      getRemaining cap win t idf (sendEmail cfgOk envZero 5 emailX optsNone c10world).2.rl
        = getRemaining cap win t idf c10world.rl :=
  duplicate_send_preserves_rateLimiter cfgOk envZero 5 emailX optsNone c10world c10rec
    (by decide) (by decide) (by decide)

/-! C2 and C9 counterexamples: concrete runs of sendEmail. -/

def c2out1 : Except EmailError SendResult × World :=
  sendEmail cfgOk envZero 0 emailX optsNone (initWorld cfgOk 0)

def c2out2 : Except EmailError SendResult × World :=
  sendEmail cfgOk envZero 5 emailX optsNone c2out1.2

/-- C2 counterexample: the original send at time 0 returns a result whose
timestamp is the ISO string for time 0, but the duplicate send at time 5
returns the cached record whose timestamp field was overwritten by the
numeric Date.now() of the tracking step, so the two returned values are
not equal and the caller can tell them apart. -/
theorem duplicate_send_not_verbatim :
    c2out1.1 = .ok { success := true, messageId := ("P", 0), provider := "P",
                     timestamp := .iso 0, emailTo := "user@example.com",
                     emailSubject := "Hello" } ∧
    c2out2.1 = .ok { success := true, messageId := ("P", 0), provider := "P",
                     timestamp := .ms 0, emailTo := "user@example.com",
                     emailSubject := "Hello" } ∧
    c2out2.1 ≠ c2out1.1 := by decide

def cfgFail1 : Config :=
  { maxRetries := 2, providers := [{ name := "F", failureRate := 1, isHealthy := true }] }

def c9out : Except EmailError SendResult × World :=
  sendEmail cfgFail1 (fun _ => 0) 0 emailX optsNone (initWorld cfgFail1 0)

/-- C9 counterexample: with one always-failing provider and maxRetries 2, a
single send produces two breaker-execute invocations for that provider —
one per attempt — not one; the retry loop sits outside execute, and the
last failure propagates into the all-providers-failed error. -/
theorem execute_not_once_per_provider :
    c9out.2.ctrs.trace = [.cbExec 0, .provCall 0, .cbExec 0, .provCall 0] ∧
    ¬ c9out.2.ctrs.trace.count (.cbExec 0) = 1 ∧
    c9out.1 = .error (.allProvidersFailed
      "F provider failed: Service temporarily unavailable") := by decide

/-! Machinery for the dispatch-loop claims: how one breaker-wrapped
attempt, the retry loop, and the provider loop move the uuid counter and
the cache. -/

lemma attempt_cases (th rt now : Nat) (cb : CBState) (env : Nat → ℚ) (email : Email)
    (p : Provider) (pIdx : Nat) (c : Ctrs) :
    cbExecute th rt now cb (providerSend env now email p pIdx) c
      = (.error .breakerOpen, cb, c) ∨
    (∃ e cb1, cbExecute th rt now cb (providerSend env now email p pIdx) c
        = (.error e, cb1,
           { c with rand := c.rand + 1, trace := c.trace ++ [.provCall pIdx] })) ∨
    (∃ cb1, cbExecute th rt now cb (providerSend env now email p pIdx) c
        = (.ok { success := true, messageId := (p.name, c.uuid), provider := p.name,
                 timestamp := .iso now, emailTo := email.toAddr,
                 emailSubject := email.subject },
           cb1, { uuid := c.uuid + 1, rand := c.rand + 1,
                  trace := c.trace ++ [.provCall pIdx] })) := by
  unfold cbExecute providerSend
  dsimp only
  split
  · exact Or.inl rfl
  · rename_i gate cbg heq
    split_ifs with hfail htrip <;>
      first
        | exact Or.inr (Or.inl ⟨_, _, rfl⟩)
        | exact Or.inr (Or.inr
            ⟨{ state := .closed, failureCount := 0, nextAttempt := cbg.nextAttempt }, rfl⟩)

lemma sendWithRetry_uuid (cfg : Config) (env : Nat → ℚ) (now : Nat) (email : Email)
    (p : Provider) (pIdx : Nat) :
    ∀ (n : Nat) (cb : CBState) (c : Ctrs),
      c.uuid ≤ (sendWithRetry cfg env now email p pIdx n cb c).2.2.uuid ∧
      ∀ r, (sendWithRetry cfg env now email p pIdx n cb c).1 = .ok r →
        c.uuid ≤ r.messageId.2 ∧
        r.messageId.2 < (sendWithRetry cfg env now email p pIdx n cb c).2.2.uuid ∧
        r.timestamp = .iso now := by
  intro n
  induction n with
  | zero =>
      intro cb c
      refine ⟨by simp [sendWithRetry], ?_⟩
      intro r h
      simp [sendWithRetry] at h
  | succ m ih =>
      intro cb c
      have hc := attempt_cases cfg.circuitBreakerThreshold cfg.circuitBreakerTimeout now cb
        env email p pIdx { c with trace := c.trace ++ [.cbExec pIdx] }
      rcases hc with h | ⟨e, cb1, h⟩ | ⟨cb1, h⟩
      · rw [sendWithRetry, h]
        dsimp only
        by_cases hm : m = 0
        · subst hm
          refine ⟨le_refl _, ?_⟩
          intro r hr
          simp at hr
        · rw [if_neg hm]
          exact ih cb { c with trace := c.trace ++ [.cbExec pIdx] }
      · rw [sendWithRetry, h]
        dsimp only
        by_cases hm : m = 0
        · subst hm
          refine ⟨le_refl _, ?_⟩
          intro r hr
          simp at hr
        · rw [if_neg hm]
          exact ih cb1 { uuid := c.uuid, rand := c.rand + 1,
                         trace := c.trace ++ [.cbExec pIdx] ++ [.provCall pIdx] }
      · rw [sendWithRetry, h]
        dsimp only
        refine ⟨Nat.le_succ _, ?_⟩
        intro r hr
        rw [Except.ok.injEq] at hr
        subst hr
        exact ⟨le_refl _, Nat.lt_succ_self _, rfl⟩

lemma tryProviders_uuid_mono (cfg : Config) (env : Nat → ℚ) (now : Nat) (email : Email)
    (key : IdemKey) :
    ∀ (rem offset : Nat) (lastErr : Option String) (w : World),
      w.ctrs.uuid ≤ (tryProviders cfg env now email key offset rem lastErr w).2.ctrs.uuid := by
  intro rem
  induction rem with
  | zero =>
      intro offset lastErr w
      cases lastErr <;> simp [tryProviders]
  | succ m ih =>
      intro offset lastErr w
      rw [tryProviders]
      dsimp only
      cases hp : cfg.providers[(w.currentProviderIndex + offset) % cfg.providers.length]? with
      | none => exact le_refl _
      | some p =>
          dsimp only
          have hu := (sendWithRetry_uuid cfg env now email p
            ((w.currentProviderIndex + offset) % cfg.providers.length) cfg.maxRetries
            ((w.breakers[(w.currentProviderIndex + offset) % cfg.providers.length]?).getD {})
            w.ctrs).1
          rcases hswr : sendWithRetry cfg env now email p
              ((w.currentProviderIndex + offset) % cfg.providers.length) cfg.maxRetries
              ((w.breakers[(w.currentProviderIndex + offset) % cfg.providers.length]?).getD {})
              w.ctrs with ⟨res, cb1, c1⟩
          rw [hswr] at hu
          cases res with
          | ok r => exact hu
          | error e =>
              dsimp only
              exact le_trans hu (ih (offset + 1) (some (errMessage e))
                { w with
                  breakers :=
                    (w.breakers.set ((w.currentProviderIndex + offset) % cfg.providers.length) cb1),
                  ctrs := c1 })

lemma tryProviders_ok_spec (cfg : Config) (env : Nat → ℚ) (now : Nat) (email : Email)
    (key : IdemKey) :
    ∀ (rem offset : Nat) (lastErr : Option String) (w : World) (r : SendResult) (w1 : World),
      tryProviders cfg env now email key offset rem lastErr w = (.ok r, w1) →
      lookupA key w1.sentEmails = some { r with timestamp := .ms now } ∧
      w.ctrs.uuid ≤ r.messageId.2 ∧ r.messageId.2 < w1.ctrs.uuid ∧
      r.timestamp = .iso now := by
  intro rem
  induction rem with
  | zero =>
      intro offset lastErr w r w1 h
      cases lastErr <;> simp [tryProviders] at h
  | succ m ih =>
      intro offset lastErr w r w1 h
      rw [tryProviders] at h
      dsimp only at h
      cases hp : cfg.providers[(w.currentProviderIndex + offset) % cfg.providers.length]? with
      | none => rw [hp] at h; simp at h
      | some p =>
          rw [hp] at h
          dsimp only at h
          have hu := sendWithRetry_uuid cfg env now email p
            ((w.currentProviderIndex + offset) % cfg.providers.length) cfg.maxRetries
            ((w.breakers[(w.currentProviderIndex + offset) % cfg.providers.length]?).getD {})
            w.ctrs
          rcases hswr : sendWithRetry cfg env now email p
              ((w.currentProviderIndex + offset) % cfg.providers.length) cfg.maxRetries
              ((w.breakers[(w.currentProviderIndex + offset) % cfg.providers.length]?).getD {})
              w.ctrs with ⟨res, cb1, c1⟩
          rw [hswr] at h hu
          cases res with
          | ok r0 =>
              dsimp only at h
              rw [Prod.mk.injEq, Except.ok.injEq] at h
              obtain ⟨hr, hw⟩ := h
              subst hw
              subst hr
              exact ⟨lookupA_insertA key _ _, hu.2 _ rfl⟩
          | error e =>
              dsimp only at h
              have := ih (offset + 1) (some (errMessage e)) _ r w1 h
              exact ⟨this.1, le_trans hu.1 this.2.1, this.2.2⟩

lemma sendEmail_ok_validate (cfg : Config) (env : Nat → ℚ) (now : Nat) (email : Email)
    (opts : SendOptions) (w : World) (r : SendResult) (w1 : World)
    (h : sendEmail cfg env now email opts w = (.ok r, w1)) : validateEmail email = none := by
  unfold sendEmail at h
  cases hv : validateEmail email with
  | none => rfl
  | some m => rw [hv] at h; simp at h

lemma sendEmail_fresh_ok_spec (cfg : Config) (env : Nat → ℚ) (now : Nat) (email : Email)
    (opts : SendOptions) (w : World) (r : SendResult) (w1 : World)
    (hdup : (isDuplicate cfg.idempotencyTtl now (idempotencyKeyOf email opts) w.sentEmails).1
      = false)
    (hok : sendEmail cfg env now email opts w = (.ok r, w1)) :
    lookupA (idempotencyKeyOf email opts) w1.sentEmails
      = some { r with timestamp := .ms now } ∧
    w.ctrs.uuid ≤ r.messageId.2 ∧ r.messageId.2 < w1.ctrs.uuid ∧
    r.timestamp = .iso now := by
  have hval := sendEmail_ok_validate cfg env now email opts w r w1 hok
  unfold sendEmail at hok
  rw [hval] at hok
  dsimp only at hok
  rcases hd : isDuplicate cfg.idempotencyTtl now (idempotencyKeyOf email opts) w.sentEmails
    with ⟨b, sent1⟩
  rw [hd] at hok hdup
  dsimp only at hdup
  subst hdup
  dsimp only at hok
  rcases ha : isAllowed cfg.rateLimit cfg.rateLimitWindow now
      (if email.fromField = "" then "default" else email.fromField) w.rl with ⟨allowed, rl1⟩
  rw [ha] at hok
  cases allowed with
  | false => simp at hok
  | true =>
      dsimp only at hok
      exact tryProviders_ok_spec cfg env now email (idempotencyKeyOf email opts)
        cfg.providers.length 0 none { w with sentEmails := sent1, rl := rl1 } r w1 hok

/-! C1: idempotency across calls, C2 (amended): what the duplicate call
returns. -/

/-- C1: for every request, a first successful send, a second send with the
same fingerprint within the TTL, and a third send after the TTL has
expired: the second send returns a result with the same message identifier
as the first, and the third (fresh, successful) send returns a new,
distinct message identifier. -/
theorem idempotent_within_ttl_fresh_after (cfg : Config) (env : Nat → ℚ)
    (t1 t2 t3 : Nat) (email : Email) (opts : SendOptions) (w : World)
    (r1 : SendResult) (w1 : World) (res2 : Except EmailError SendResult) (w2 : World)
    (r3 : SendResult) (w3 : World)
    (hk : lookupA (idempotencyKeyOf email opts) w.sentEmails = none)
    (h1 : sendEmail cfg env t1 email opts w = (.ok r1, w1))
    (hin : t2 - t1 ≤ cfg.idempotencyTtl)
    (h2 : sendEmail cfg env t2 email opts w1 = (res2, w2))
    (hexp : cfg.idempotencyTtl < t3 - t1)
    (h3 : sendEmail cfg env t3 email opts w2 = (.ok r3, w3)) :
    (∃ r2, res2 = .ok r2 ∧ r2.messageId = r1.messageId) ∧
    r3.messageId ≠ r1.messageId := by
  have hval := sendEmail_ok_validate cfg env t1 email opts w r1 w1 h1
  have hdup1 : (isDuplicate cfg.idempotencyTtl t1 (idempotencyKeyOf email opts)
      w.sentEmails).1 = false := by
    simp [isDuplicate, hk]
  obtain ⟨hlook1, hlo1, hhi1, hts1⟩ :=
    sendEmail_fresh_ok_spec cfg env t1 email opts w r1 w1 hdup1 h1
  have hlive2 : jsExpired t2 (JsTime.ms t1) cfg.idempotencyTtl = false := by
    simp [jsExpired]; omega
  have h2' := sendEmail_duplicate_spec cfg env t2 email opts w1
    { r1 with timestamp := .ms t1 } hval hlook1 hlive2
  rw [h2'] at h2
  rw [Prod.mk.injEq] at h2
  have hres2 : res2 = .ok { r1 with timestamp := .ms t1 } := h2.1.symm
  have hw2 : w2 = w1 := h2.2.symm
  refine ⟨⟨{ r1 with timestamp := .ms t1 }, hres2, rfl⟩, ?_⟩
  subst hw2
  have hx : jsExpired t3 (JsTime.ms t1) cfg.idempotencyTtl = true := by
    simp [jsExpired]; omega
  have hdup3 : (isDuplicate cfg.idempotencyTtl t3 (idempotencyKeyOf email opts)
      w2.sentEmails).1 = false := by
    simp [isDuplicate, hlook1, hx]
  obtain ⟨_, hlo3, _, _⟩ :=
    sendEmail_fresh_ok_spec cfg env t3 email opts w2 r3 w3 hdup3 h3
  intro heq
  have h2eq : r3.messageId.2 = r1.messageId.2 := congrArg Prod.snd heq
  omega

def c1out1 : Except EmailError SendResult × World :=
  sendEmail cfgOk envZero 0 emailX optsNone (initWorld cfgOk 0)

def c1out2 : Except EmailError SendResult × World :=
  sendEmail cfgOk envZero 5 emailX optsNone c1out1.2

def c1out3 : Except EmailError SendResult × World :=
  sendEmail cfgOk envZero 3600001 emailX optsNone c1out2.2

def c1res1 : SendResult :=
  { success := true, messageId := ("P", 0), provider := "P", timestamp := .iso 0,
    emailTo := "user@example.com", emailSubject := "Hello" }

def c1res3 : SendResult :=
  { success := true, messageId := ("P", 1), provider := "P", timestamp := .iso 3600001,
    emailTo := "user@example.com", emailSubject := "Hello" }

/-- Witness for C1: sends at times 0, 5 and 3600001 against the default
TTL of 3600000. -/
theorem idempotent_within_ttl_fresh_after_witness :
    (∃ r2, c1out2.1 = .ok r2 ∧ r2.messageId = c1res1.messageId) ∧
    c1res3.messageId ≠ c1res1.messageId :=
  idempotent_within_ttl_fresh_after cfgOk envZero 0 5 3600001 emailX optsNone
    (initWorld cfgOk 0) c1res1 c1out1.2 c1out2.1 c1out2.2 c1res3 c1out3.2
    (by decide) (by decide) (by decide) rfl (by decide) (by decide)

/-- C2 (amended): a duplicate send within the TTL returns the cached
idempotency record: it agrees with the original result on success,
messageId, provider and the email echo, and leaves the world unchanged,
but its timestamp field holds the numeric cache-record creation time
rather than the original ISO completion timestamp, so it is not equal to
the originally returned DispatchResult. -/
theorem duplicate_send_returns_cached_record (cfg : Config) (env : Nat → ℚ)
    (t1 t2 : Nat) (email : Email) (opts : SendOptions) (w : World)
    (r1 : SendResult) (w1 : World) (res2 : Except EmailError SendResult) (w2 : World)
    (hk : lookupA (idempotencyKeyOf email opts) w.sentEmails = none)
    (h1 : sendEmail cfg env t1 email opts w = (.ok r1, w1))
    (hin : t2 - t1 ≤ cfg.idempotencyTtl)
    (h2 : sendEmail cfg env t2 email opts w1 = (res2, w2)) :
    res2 = .ok { r1 with timestamp := .ms t1 } ∧ w2 = w1 ∧
    ∃ r2, res2 = .ok r2 ∧ r2.messageId = r1.messageId ∧ r2.provider = r1.provider ∧
      r2.success = r1.success ∧ r2.emailTo = r1.emailTo ∧
      r2.emailSubject = r1.emailSubject ∧ r2.timestamp = .ms t1 ∧ r2 ≠ r1 := by
  have hval := sendEmail_ok_validate cfg env t1 email opts w r1 w1 h1
  have hdup1 : (isDuplicate cfg.idempotencyTtl t1 (idempotencyKeyOf email opts)
      w.sentEmails).1 = false := by
    simp [isDuplicate, hk]
  obtain ⟨hlook1, hlo1, hhi1, hts1⟩ :=
    sendEmail_fresh_ok_spec cfg env t1 email opts w r1 w1 hdup1 h1
  have hlive2 : jsExpired t2 (JsTime.ms t1) cfg.idempotencyTtl = false := by
    simp [jsExpired]; omega
  have h2' := sendEmail_duplicate_spec cfg env t2 email opts w1
    { r1 with timestamp := .ms t1 } hval hlook1 hlive2
  rw [h2'] at h2
  rw [Prod.mk.injEq] at h2
  refine ⟨h2.1.symm, h2.2.symm, { r1 with timestamp := .ms t1 }, h2.1.symm,
    rfl, rfl, rfl, rfl, rfl, rfl, ?_⟩
  intro hcontra
  have hts := congrArg SendResult.timestamp hcontra
  rw [hts1] at hts
  exact JsTime.noConfusion hts

/-- Witness for C2 (amended): concrete duplicate send at time 5 of an
original send at time 0. -/
theorem duplicate_send_returns_cached_record_witness :
    c1out2.1 = .ok { c1res1 with timestamp := .ms 0 } ∧ c1out2.2 = c1out1.2 ∧
    ∃ r2, c1out2.1 = .ok r2 ∧ r2.messageId = c1res1.messageId ∧
      r2.provider = c1res1.provider ∧ r2.success = c1res1.success ∧
      r2.emailTo = c1res1.emailTo ∧ r2.emailSubject = c1res1.emailSubject ∧
      r2.timestamp = .ms 0 ∧ r2 ≠ c1res1 :=
  duplicate_send_returns_cached_record cfgOk envZero 0 5 emailX optsNone
    (initWorld cfgOk 0) c1res1 c1out1.2 c1out2.1 c1out2.2
    (by decide) (by decide) (by decide) rfl

/-! C3, C4, C9: behavior of the retry loop over always-failing providers,
with the invocation trace made explicit. -/

/-- The trace appended by n failing attempts against provider pIdx: each
attempt is one execute invocation followed by one provider invocation. -/
def swrTrace (pIdx : Nat) : Nat → List TraceEv
  | 0 => []
  | n + 1 => .cbExec pIdx :: .provCall pIdx :: swrTrace pIdx n

/-- Occurrence count of one event in a trace. -/
def countEv (e : TraceEv) : List TraceEv → Nat
  | [] => 0
  | x :: xs => (if x = e then 1 else 0) + countEv e xs

lemma countEv_append (e : TraceEv) (l1 l2 : List TraceEv) :
    countEv e (l1 ++ l2) = countEv e l1 + countEv e l2 := by
  induction l1 with
  | nil => simp [countEv]
  | cons x xs ih => simp [countEv, ih]; omega

lemma countEv_swrTrace_provCall (i j n : Nat) :
    countEv (.provCall j) (swrTrace i n) = if i = j then n else 0 := by
  induction n with
  | zero => simp [swrTrace, countEv]
  | succ m ih =>
      by_cases h : i = j
      · subst h; simp [swrTrace, countEv, ih]; omega
      · simp [swrTrace, countEv, ih, h]

lemma countEv_swrTrace_cbExec (i j n : Nat) :
    countEv (.cbExec j) (swrTrace i n) = if i = j then n else 0 := by
  induction n with
  | zero => simp [swrTrace, countEv]
  | succ m ih =>
      by_cases h : i = j
      · subst h; simp [swrTrace, countEv, ih]; omega
      · simp [swrTrace, countEv, ih, h]

/-- One breaker-wrapped attempt against a CLOSED breaker whose provider
call fails: the provider error propagates, the failure count goes up by
one, tripping to OPEN exactly when the threshold is reached, and one
random draw and one provider-call trace event are consumed. -/
lemma attempt_fail_closed (th rt now : Nat) (cb : CBState) (env : Nat → ℚ) (email : Email)
    (p : Provider) (pIdx : Nat) (c : Ctrs)
    (hclosed : cb.state = .closed)
    (hfail : p.isHealthy = false ∨ env c.rand < p.failureRate) :
    cbExecute th rt now cb (providerSend env now email p pIdx) c
      = (.error (.providerFailed p.name),
         if th ≤ cb.failureCount + 1
           then { state := .open_, failureCount := cb.failureCount + 1,
                  nextAttempt := some (now + rt) }
           else { cb with failureCount := cb.failureCount + 1 },
         { c with rand := c.rand + 1, trace := c.trace ++ [.provCall pIdx] }) := by
  rcases cb with ⟨st, fc, na⟩
  dsimp only at hclosed
  subst hclosed
  unfold cbExecute providerSend
  dsimp only
  rw [if_pos hfail]
  dsimp only
  by_cases ht : th ≤ fc + 1
  · rw [if_pos (Or.inl ht), if_pos ht]
  · rw [if_neg (by simp [ht]), if_neg ht]

/-- The retry loop against an always-failing provider with a CLOSED breaker
that cannot trip early: all n attempts run, each invoking execute and the
provider once, the provider error of the last attempt propagates, and no
uuid is consumed. -/
lemma sendWithRetry_allFail (cfg : Config) (env : Nat → ℚ) (now : Nat) (email : Email)
    (p : Provider) (pIdx : Nat)
    (hfail : ∀ i, p.isHealthy = false ∨ env i < p.failureRate) :
    ∀ (n : Nat) (cb : CBState) (c : Ctrs), 1 ≤ n → cb.state = .closed →
      cb.failureCount + n ≤ cfg.circuitBreakerThreshold →
      ∃ cb1, sendWithRetry cfg env now email p pIdx n cb c
        = (.error (.providerFailed p.name), cb1,
           { c with rand := c.rand + n, trace := c.trace ++ swrTrace pIdx n }) := by
  intro n
  induction n with
  | zero => intro cb c h1 _ _; exact absurd h1 (by decide)
  | succ m ih =>
      intro cb c h1 hclosed hbound
      rw [sendWithRetry]
      have hatt := attempt_fail_closed cfg.circuitBreakerThreshold cfg.circuitBreakerTimeout
        now cb env email p pIdx { c with trace := c.trace ++ [.cbExec pIdx] } hclosed (hfail _)
      rw [hatt]
      dsimp only
      by_cases hm : m = 0
      · subst hm
        rw [if_pos rfl]
        refine ⟨(if cfg.circuitBreakerThreshold ≤ cb.failureCount + 1
            then { state := .open_, failureCount := cb.failureCount + 1,
                   nextAttempt := some (now + cfg.circuitBreakerTimeout) }
            else { cb with failureCount := cb.failureCount + 1 }), ?_⟩
        simp [swrTrace]
      · rw [if_neg hm]
        have hnotrip : ¬ (cfg.circuitBreakerThreshold ≤ cb.failureCount + 1) := by omega
        rw [if_neg hnotrip]
        obtain ⟨cb1, hrec⟩ := ih { cb with failureCount := cb.failureCount + 1 }
          { uuid := c.uuid, rand := c.rand + 1,
            trace := (c.trace ++ [.cbExec pIdx]) ++ [.provCall pIdx] }
          (by omega) (by dsimp only; exact hclosed) (by dsimp only; omega)
        refine ⟨cb1, ?_⟩
        rw [hrec]
        simp [swrTrace, Nat.add_comm, Nat.add_assoc, Nat.add_left_comm]

/-- One breaker-wrapped attempt against a CLOSED breaker whose provider
call succeeds: the provider result comes back, the breaker resets to
CLOSED with failureCount 0, and one draw, one uuid and one provider-call
trace event are consumed. -/
lemma attempt_ok_closed (th rt now : Nat) (cb : CBState) (env : Nat → ℚ) (email : Email)
    (p : Provider) (pIdx : Nat) (c : Ctrs)
    (hclosed : cb.state = .closed)
    (hok : ¬ (p.isHealthy = false ∨ env c.rand < p.failureRate)) :
    cbExecute th rt now cb (providerSend env now email p pIdx) c
      = (.ok { success := true, messageId := (p.name, c.uuid), provider := p.name,
               timestamp := .iso now, emailTo := email.toAddr,
               emailSubject := email.subject },
         { cb with state := .closed, failureCount := 0 },
         { uuid := c.uuid + 1, rand := c.rand + 1,
           trace := c.trace ++ [.provCall pIdx] }) := by
  rcases cb with ⟨st, fc, na⟩
  dsimp only at hclosed
  subst hclosed
  unfold cbExecute providerSend
  dsimp only
  rw [if_neg hok]

/-- The retry loop when the very first attempt succeeds against a CLOSED
breaker. -/
lemma sendWithRetry_okFirst (cfg : Config) (env : Nat → ℚ) (now : Nat) (email : Email)
    (p : Provider) (pIdx : Nat) (n : Nat) (cb : CBState) (c : Ctrs)
    (hn : 1 ≤ n) (hclosed : cb.state = .closed)
    (hok : ¬ (p.isHealthy = false ∨ env c.rand < p.failureRate)) :
    sendWithRetry cfg env now email p pIdx n cb c
      = (.ok { success := true, messageId := (p.name, c.uuid), provider := p.name,
               timestamp := .iso now, emailTo := email.toAddr,
               emailSubject := email.subject },
         { cb with state := .closed, failureCount := 0 },
         { uuid := c.uuid + 1, rand := c.rand + 1,
           trace := (c.trace ++ [.cbExec pIdx]) ++ [.provCall pIdx] }) := by
  obtain ⟨k, rfl⟩ : ∃ k, n = k + 1 := ⟨n - 1, by omega⟩
  rw [sendWithRetry]
  have hatt := attempt_ok_closed cfg.circuitBreakerThreshold cfg.circuitBreakerTimeout now cb
    env email p pIdx { c with trace := c.trace ++ [.cbExec pIdx] } hclosed hok
  rw [hatt]

/-- A fresh sendEmail call (empty cache, fresh limiter with positive limit)
reduces to the provider loop over a world whose cache, counters and
breakers are fresh. -/
lemma sendEmail_fresh_step (cfg : Config) (env : Nat → ℚ) (now : Nat) (email : Email)
    (opts : SendOptions) (t0 : Nat)
    (hval : validateEmail email = none) (hlim : 1 ≤ cfg.rateLimit) :
    ∃ rl1, sendEmail cfg env now email opts (initWorld cfg t0)
      = tryProviders cfg env now email (idempotencyKeyOf email opts) 0
          cfg.providers.length none
          { sentEmails := [], currentProviderIndex := 0, rl := rl1,
            breakers := List.replicate cfg.providers.length {}, ctrs := ⟨0, 0, []⟩ } := by
  unfold sendEmail
  rw [hval]
  dsimp only
  have hdup : isDuplicate cfg.idempotencyTtl now (idempotencyKeyOf email opts)
      (initWorld cfg t0).sentEmails = (false, []) := by
    simp [isDuplicate, initWorld, lookupA]
  rw [hdup]
  dsimp only
  rcases hA : isAllowed cfg.rateLimit cfg.rateLimitWindow now
      (if email.fromField = "" then "default" else email.fromField)
      (initWorld cfg t0).rl with ⟨allowed, rl1⟩
  have hallow : allowed = true := by
    have := isAllowed_fst cfg.rateLimit cfg.rateLimitWindow now
      (if email.fromField = "" then "default" else email.fromField) (initWorld cfg t0).rl
    rw [hA] at this
    dsimp only at this
    rw [this]
    simp [initWorld, rlInit, lookupA, recentRequests]
    omega
  subst hallow
  dsimp only
  exact ⟨rl1, rfl⟩

/-- An always-failing provider: failure rate 1 means every draw of
Math.random (always below 1) fails the call. -/
def failingProvider (nm : String) : Provider :=
  { name := nm, failureRate := 1, isHealthy := true }

/-- Service configuration with two always-failing providers. -/
def cfgTwoFail (nA nB : String) (mr th : Nat) : Config :=
  { maxRetries := mr, circuitBreakerThreshold := th,
    providers := [failingProvider nA, failingProvider nB] }

/-- C4: with every provider failing on every attempt, sendEmail fails with
the all-providers-failed error carrying the message of the last underlying
provider error (that of the second provider), after invoking each of the
two providers exactly maxRetries times. -/
theorem allProvidersFailed_after_full_retry_budget
    (nA nB : String) (mr th t0 now : Nat) (env : Nat → ℚ) (email : Email)
    (opts : SendOptions)
    (hmr : 1 ≤ mr) (hth : mr ≤ th) (henv : ∀ i, env i < 1)
    (hval : validateEmail email = none) :
    (sendEmail (cfgTwoFail nA nB mr th) env now email opts
        (initWorld (cfgTwoFail nA nB mr th) t0)).1
      = .error (.allProvidersFailed
          (nB ++ " provider failed: Service temporarily unavailable")) ∧
    countEv (.provCall 0) (sendEmail (cfgTwoFail nA nB mr th) env now email opts
        (initWorld (cfgTwoFail nA nB mr th) t0)).2.ctrs.trace = mr ∧
    countEv (.provCall 1) (sendEmail (cfgTwoFail nA nB mr th) env now email opts
        (initWorld (cfgTwoFail nA nB mr th) t0)).2.ctrs.trace = mr := by
  obtain ⟨rl1, hstep⟩ := sendEmail_fresh_step (cfgTwoFail nA nB mr th) env now email opts t0
    hval (by simp [cfgTwoFail])
  rw [hstep]
  have hfailA : ∀ i, (failingProvider nA).isHealthy = false ∨
      env i < (failingProvider nA).failureRate := fun i => Or.inr (henv i)
  have hfailB : ∀ i, (failingProvider nB).isHealthy = false ∨
      env i < (failingProvider nB).failureRate := fun i => Or.inr (henv i)
  have hprov : (cfgTwoFail nA nB mr th).providers
      = [failingProvider nA, failingProvider nB] := rfl
  have hmrr : (cfgTwoFail nA nB mr th).maxRetries = mr := rfl
  obtain ⟨cb1, hswr1⟩ := sendWithRetry_allFail (cfgTwoFail nA nB mr th) env now email
    (failingProvider nA) 0 hfailA mr {} ⟨0, 0, []⟩ hmr rfl (by dsimp [cfgTwoFail]; omega)
  obtain ⟨cb2, hswr2⟩ := sendWithRetry_allFail (cfgTwoFail nA nB mr th) env now email
    (failingProvider nB) 1 hfailB mr {} ⟨0, mr, swrTrace 0 mr⟩
    hmr rfl (by dsimp [cfgTwoFail]; omega)
  simp [tryProviders, hprov, hmrr, hswr1, hswr2, errMessage]
  refine ⟨rfl, ?_, ?_⟩
  · simp [countEv_append, countEv_swrTrace_provCall]
  · simp [countEv_append, countEv_swrTrace_provCall]

/-- Witness for C4: two always-failing providers, maxRetries 2,
threshold 5. -/
theorem allProvidersFailed_after_full_retry_budget_witness :
    (sendEmail (cfgTwoFail "AlwaysFails-A" "AlwaysFails-B" 2 5) (fun _ => 0) 0 emailX optsNone
        (initWorld (cfgTwoFail "AlwaysFails-A" "AlwaysFails-B" 2 5) 0)).1
      = .error (.allProvidersFailed
          ("AlwaysFails-B" ++ " provider failed: Service temporarily unavailable")) ∧
    countEv (.provCall 0) (sendEmail (cfgTwoFail "AlwaysFails-A" "AlwaysFails-B" 2 5)
        (fun _ => 0) 0 emailX optsNone
        (initWorld (cfgTwoFail "AlwaysFails-A" "AlwaysFails-B" 2 5) 0)).2.ctrs.trace = 2 ∧
    countEv (.provCall 1) (sendEmail (cfgTwoFail "AlwaysFails-A" "AlwaysFails-B" 2 5)
        (fun _ => 0) 0 emailX optsNone
        (initWorld (cfgTwoFail "AlwaysFails-A" "AlwaysFails-B" 2 5) 0)).2.ctrs.trace = 2 :=
  allProvidersFailed_after_full_retry_budget "AlwaysFails-A" "AlwaysFails-B" 2 5 0 0
    (fun _ => 0) emailX optsNone (by decide) (by decide) (fun i => by norm_num) (by decide)

/-- An always-succeeding provider: failure rate 0 means no draw of
Math.random (never negative) fails the call. -/
def okProviderAS : Provider :=
  { name := "AlwaysSucceeds", failureRate := 0, isHealthy := true }

/-- Service configuration for the fallback scenario: an always-failing
provider followed by an always-succeeding one, with the default
maxRetries 3 and threshold 5. -/
def cfgFallback : Config :=
  { providers := [failingProvider "AlwaysFails", okProviderAS] }

/-- C3: with providers AlwaysFails then AlwaysSucceeds, sendEmail returns a
successful DispatchResult attributed to AlwaysSucceeds; no error escapes
to the caller. -/
theorem fallback_returns_second_provider (t0 now : Nat) (env : Nat → ℚ) (email : Email)
    (opts : SendOptions)
    (henv : ∀ i, 0 ≤ env i ∧ env i < 1) (hval : validateEmail email = none) :
    (sendEmail cfgFallback env now email opts (initWorld cfgFallback t0)).1
      = .ok { success := true, messageId := ("AlwaysSucceeds", 0),
              provider := "AlwaysSucceeds", timestamp := .iso now,
              emailTo := email.toAddr, emailSubject := email.subject } := by
  obtain ⟨rl1, hstep⟩ := sendEmail_fresh_step cfgFallback env now email opts t0 hval
    (by simp [cfgFallback])
  rw [hstep]
  have hfailA : ∀ i, (failingProvider "AlwaysFails").isHealthy = false ∨
      env i < (failingProvider "AlwaysFails").failureRate := fun i => Or.inr (henv i).2
  have hprov : cfgFallback.providers
      = [failingProvider "AlwaysFails", okProviderAS] := rfl
  have hmrr : cfgFallback.maxRetries = 3 := rfl
  obtain ⟨cb1, hswr1⟩ := sendWithRetry_allFail cfgFallback env now email
    (failingProvider "AlwaysFails") 0 hfailA 3 {} ⟨0, 0, []⟩ (by decide) rfl (by decide)
  have hok2 : ¬ (okProviderAS.isHealthy = false ∨ env 3 < okProviderAS.failureRate) := by
    rintro (h | h)
    · exact absurd h (by simp [okProviderAS])
    · exact absurd h (not_lt.mpr (henv 3).1)
  have hswr2 := sendWithRetry_okFirst cfgFallback env now email okProviderAS 1 3 {}
    ⟨0, 3, swrTrace 0 3⟩ (by decide) rfl hok2
  simp [tryProviders, hprov, hmrr, hswr1, hswr2]
  simp [okProviderAS]

/-- Witness for C3. -/
theorem fallback_returns_second_provider_witness :
    (sendEmail cfgFallback (fun _ => 0) 7 emailX optsNone (initWorld cfgFallback 0)).1
      = .ok { success := true, messageId := ("AlwaysSucceeds", 0),
              provider := "AlwaysSucceeds", timestamp := .iso 7,
              emailTo := emailX.toAddr, emailSubject := emailX.subject } :=
  fallback_returns_second_provider 0 7 (fun _ => 0) emailX optsNone
    (fun i => ⟨by norm_num, by norm_num⟩) (by decide)

/-- Service configuration with a single always-failing provider. -/
def cfgOneFail (nm : String) (mr th : Nat) : Config :=
  { maxRetries := mr, circuitBreakerThreshold := th, providers := [failingProvider nm] }

/-- C9 (amended): the retry loop wraps the breaker, not the other way
around: during one send against an always-failing provider,
CircuitBreaker.execute is invoked once per attempt — maxRetries times in
total for that provider, matching one provider call per execute — and the
failure of the last attempt propagates into the terminal error. -/
theorem execute_invoked_once_per_attempt (nm : String) (mr th t0 now : Nat)
    (env : Nat → ℚ) (email : Email) (opts : SendOptions)
    (hmr : 1 ≤ mr) (hth : mr ≤ th) (henv : ∀ i, env i < 1)
    (hval : validateEmail email = none) :
    (sendEmail (cfgOneFail nm mr th) env now email opts
        (initWorld (cfgOneFail nm mr th) t0)).1
      = .error (.allProvidersFailed
          (nm ++ " provider failed: Service temporarily unavailable")) ∧
    countEv (.cbExec 0) (sendEmail (cfgOneFail nm mr th) env now email opts
        (initWorld (cfgOneFail nm mr th) t0)).2.ctrs.trace = mr ∧
    countEv (.provCall 0) (sendEmail (cfgOneFail nm mr th) env now email opts
        (initWorld (cfgOneFail nm mr th) t0)).2.ctrs.trace = mr := by
  obtain ⟨rl1, hstep⟩ := sendEmail_fresh_step (cfgOneFail nm mr th) env now email opts t0
    hval (by simp [cfgOneFail])
  rw [hstep]
  have hfailA : ∀ i, (failingProvider nm).isHealthy = false ∨
      env i < (failingProvider nm).failureRate := fun i => Or.inr (henv i)
  have hprov : (cfgOneFail nm mr th).providers = [failingProvider nm] := rfl
  have hmrr : (cfgOneFail nm mr th).maxRetries = mr := rfl
  obtain ⟨cb1, hswr1⟩ := sendWithRetry_allFail (cfgOneFail nm mr th) env now email
    (failingProvider nm) 0 hfailA mr {} ⟨0, 0, []⟩ hmr rfl (by dsimp [cfgOneFail]; omega)
  simp [tryProviders, hprov, hmrr, hswr1, errMessage]
  refine ⟨rfl, ?_, ?_⟩
  · simp [countEv_swrTrace_cbExec]
  · simp [countEv_swrTrace_provCall]

/-- Witness for C9 (amended): one always-failing provider, maxRetries 2,
threshold 5, mirroring the counterexample run. -/
theorem execute_invoked_once_per_attempt_witness :
    (sendEmail (cfgOneFail "F" 2 5) (fun _ => 0) 0 emailX optsNone
        (initWorld (cfgOneFail "F" 2 5) 0)).1
      = .error (.allProvidersFailed
          ("F" ++ " provider failed: Service temporarily unavailable")) ∧
    countEv (.cbExec 0) (sendEmail (cfgOneFail "F" 2 5) (fun _ => 0) 0 emailX optsNone
        (initWorld (cfgOneFail "F" 2 5) 0)).2.ctrs.trace = 2 ∧
    countEv (.provCall 0) (sendEmail (cfgOneFail "F" 2 5) (fun _ => 0) 0 emailX optsNone
        (initWorld (cfgOneFail "F" 2 5) 0)).2.ctrs.trace = 2 :=
  execute_invoked_once_per_attempt "F" 2 5 0 0 (fun _ => 0) emailX optsNone
    (by decide) (by decide) (fun i => by norm_num) (by decide)

end ResilientMailer
